import Mathlib

/-
Verification of the Lua <-> Flecs component-binding layer
(src/Flecs_TRY.cpp, src/TransformTester.cpp).

The embedding models:
  * the native component types `Transform` (a shared_ptr to a
    TransformTester resource, represented by a resource id) and
    `Velocity` (two numeric fields);
  * Lua values (`Val`): nil, booleans, numbers, strings, table
    references into a Lua heap, and the sol2 userdata produced by the
    component constructors and by the pointer-returning `get` lambdas;
  * the world state (`World`): per-entity Flecs component storage for
    the three registered kinds, the Lua table heap, and a counter of
    forced garbage-collection passes;
  * the component registry `luaComponentRegistry` built in `main`
    ("Transform", "Velocity", "DynamicComponent") and the entity
    binding dispatch (`addComponent` / `getComponent` /
    `removeComponent`) from `bindEntity`;
  * a separate reference-counting trace model (namespace `Lifetime`)
    of the shared_ptr ownership protocol for the Transform resource,
    used for the deterministic-teardown property.
-/

namespace FlecsTry

/-- Native `Velocity` component: two numeric fields with value
semantics (floats in the source, modeled as integers since no float
arithmetic is involved in the binding layer). -/
structure Velocity where
  vx : Int
  vy : Int
deriving DecidableEq, Repr

/-- Flecs entity handle. -/
abbrev Entity := Nat

/-- Lua-side values as seen by the binding layer.  `tableRef` is a
reference into the Lua table heap (Lua tables have reference
semantics).  `velocityUD` / `transformUD` are the by-value userdata
created by the `Velocity(x,y)` / `Transform(x,y)` constructors (a
Transform's payload is a shared_ptr to a TransformTester resource,
represented by its resource id).  `velocityPtr` / `transformPtr` are
the pointer-wrapping userdata returned by the registered `get`
lambdas (`sol::make_object(lua, ptr)` with `ptr = e.get_mut<T>()`):
they alias the component slot of the given entity inside Flecs
storage. -/
inductive Val where
  | nil : Val
  | boolean : Bool → Val
  | num : Int → Val
  | str : String → Val
  | tableRef : Nat → Val
  | velocityUD : Velocity → Val
  | velocityPtr : Entity → Val
  | transformUD : Nat → Val
  | transformPtr : Entity → Val
deriving DecidableEq, Repr

/-- The world state: Flecs component storage for the three registered
component kinds (per entity), the Lua table heap (`heap r` is the
contents of the table object at address `r`; `heapNext` is the next
fresh address), and the number of forced garbage-collection passes
(`lua.collect_garbage()` calls) performed so far. -/
structure World where
  velocity : Entity → Option Velocity
  transform : Entity → Option Nat
  dynamic : Entity → Option (List (String × Val))
  heap : Nat → List (Val × Val)
  heapNext : Nat
  gcCount : Nat

/-- Conversion `obj.as<Velocity>()`: succeeds on a Velocity value
userdata, and on the pointer userdata returned by the registered
`get` lambda — sol2 stores the `T*` under the same usertype and
`as<T>()` dereferences it, here reading the aliased storage slot.  A
pointer whose slot has since been emptied is dangling; dereferencing
it is undefined behavior in the source, totalized here as an error
(no claim depends on that branch).  Every other value fails with a
conversion error. -/
def asVelocity (w : World) : Val → Except String Velocity
  | .velocityUD t => .ok t
  | .velocityPtr q =>
      match w.velocity q with
      | some t => .ok t
      | none => .error "sol: dereference of dangling Velocity pointer"
  | _ => .error "sol: cannot convert Lua value to Velocity"

/-- Conversion `obj.as<Transform>()`: same shape as `asVelocity` —
value userdata converts, pointer userdata converts by dereferencing
the aliased slot (dangling pointer totalized as an error), everything
else is a conversion error. -/
def asTransform (w : World) : Val → Except String Nat
  | .transformUD t => .ok t
  | .transformPtr q =>
      match w.transform q with
      | some t => .ok t
      | none => .error "sol: dereference of dangling Transform pointer"
  | _ => .error "sol: cannot convert Lua value to Transform"

/-- `obj.as<sol::table>()`: succeeds exactly on a table value. -/
def asTable : Val → Except String Nat
  | .tableRef r => .ok r
  | _ => .error "sol: cannot convert Lua value to table"

/-- `kv.first.as<std::string>()`: Lua string-coercion of a table key.
Strings convert to themselves, numbers convert via `lua_tostring`;
every other kind of key fails. -/
def coerceKey : Val → Option String
  | .str s => some s
  | .num n => some (toString n)
  | _ => none

/-- The operation triple stored in the registry for one component
kind (struct `LuaComponentBinding` in the source).  `add` may fail
with a sol conversion error; `get` may allocate a fresh Lua table, so
it returns the updated world together with the fetched value. -/
structure LuaComponentBinding where
  add : Entity → Val → World → Except String World
  get : Entity → World → World × Val
  remove : Entity → World → World

/-- Typed `add` for Velocity: `auto t = obj.as<T>(); e.set<T>(t);`.
The conversion happens before any storage write, so a failing
conversion leaves storage untouched. -/
def velocityAdd (e : Entity) (obj : Val) (w : World) : Except String World :=
  match asVelocity w obj with
  | .ok t => .ok { w with velocity := fun q => if q = e then some t else w.velocity q }
  | .error msg => .error msg

/-- Typed `get` for Velocity: if `e.has<T>()`, return
`sol::make_object(lua, e.get_mut<T>())` — a pointer userdata aliasing
the stored component — else `sol::nil`. -/
def velocityGet (e : Entity) (w : World) : World × Val :=
  if (w.velocity e).isSome then (w, .velocityPtr e) else (w, .nil)

/-- Typed `remove` for Velocity: `e.remove<T>()`. -/
def velocityRemove (e : Entity) (w : World) : World :=
  { w with velocity := fun q => if q = e then none else w.velocity q }

/-- Registry entry produced by `registerComponent<Velocity>`. -/
def velocityBinding : LuaComponentBinding :=
  ⟨velocityAdd, velocityGet, velocityRemove⟩

/-- Typed `add` for Transform (instance of the same generic lambda). -/
def transformAdd (e : Entity) (obj : Val) (w : World) : Except String World :=
  match asTransform w obj with
  | .ok t => .ok { w with transform := fun q => if q = e then some t else w.transform q }
  | .error msg => .error msg

/-- Typed `get` for Transform: pointer userdata aliasing storage, or nil. -/
def transformGet (e : Entity) (w : World) : World × Val :=
  if (w.transform e).isSome then (w, .transformPtr e) else (w, .nil)

/-- Typed `remove` for Transform: `e.remove<T>()`. -/
def transformRemove (e : Entity) (w : World) : World :=
  { w with transform := fun q => if q = e then none else w.transform q }

/-- Registry entry produced by `registerComponent<Transform>`. -/
def transformBinding : LuaComponentBinding :=
  ⟨transformAdd, transformGet, transformRemove⟩

/-- `dc.fields[key] = value` on a `std::unordered_map` represented as
an association list: overwrite the binding of `k` if present,
otherwise append it. -/
def insertField : List (String × Val) → String → Val → List (String × Val)
  | [], k, v => [(k, v)]
  | p :: rest, k, v =>
      if p.1 = k then (k, v) :: rest else p :: insertField rest k v

/-- The key/value loop of the DynamicComponent `add` lambda: for each
pair coerce the key to a string and insert into the field map being
built; the first non-coercible key aborts the whole loop with a sol
error (before anything is written to storage). -/
def buildFields : List (Val × Val) → List (String × Val) → Except String (List (String × Val))
  | [], acc => .ok acc
  | (k, v) :: rest, acc =>
      match coerceKey k with
      | some s => buildFields rest (insertField acc s v)
      | none => .error "sol: table key cannot convert to string"

/-- DynamicComponent `add`: convert the argument to a table, build the
field map from all its pairs, then `e.set<DynamicComponent>(dc)`.
Storage is written only after the whole loop succeeds. -/
def dynamicAdd (e : Entity) (obj : Val) (w : World) : Except String World :=
  match asTable obj with
  | .ok r =>
      match buildFields (w.heap r) [] with
      | .ok fs => .ok { w with dynamic := fun q => if q = e then some fs else w.dynamic q }
      | .error msg => .error msg
  | .error msg => .error msg

/-- DynamicComponent `get`: nil when absent; otherwise
`lua.create_table()` (a fresh table at address `heapNext`) filled
with a copy of every stored field. -/
def dynamicGet (e : Entity) (w : World) : World × Val :=
  match w.dynamic e with
  | none => (w, .nil)
  | some fs =>
      ({ w with
          heap := fun r =>
            if r = w.heapNext then fs.map (fun p => (Val.str p.1, p.2)) else w.heap r,
          heapNext := w.heapNext + 1 },
       .tableRef w.heapNext)

/-- DynamicComponent `remove`: `e.remove<DynamicComponent>()`. -/
def dynamicRemove (e : Entity) (w : World) : World :=
  { w with dynamic := fun q => if q = e then none else w.dynamic q }

/-- Registry entry produced by `registerDynamicComponent`. -/
def dynamicBinding : LuaComponentBinding :=
  ⟨dynamicAdd, dynamicGet, dynamicRemove⟩

/-- `luaComponentRegistry` as populated by `main`:
`registerComponent<Transform>(lua, ecs, "Transform")`,
`registerComponent<Velocity>(lua, ecs, "Velocity")`,
`registerDynamicComponent(ecs, lua)`. -/
def luaComponentRegistry : List (String × LuaComponentBinding) :=
  [("Transform", transformBinding),
   ("Velocity", velocityBinding),
   ("DynamicComponent", dynamicBinding)]

/-- `lua.collect_garbage()`: a forced collection pass (its effect on
shared_ptr reference counts is modeled separately in `Lifetime`). -/
def collectGarbage (w : World) : World :=
  { w with gcCount := w.gcCount + 1 }

/-- Entity binding `addComponent`: registry lookup by name; if found,
invoke the kind's `add`; if not found, do nothing. -/
def addComponent (w : World) (e : Entity) (name : String) (obj : Val) : Except String World :=
  match luaComponentRegistry.lookup name with
  | some b => b.add e obj w
  | none => .ok w

/-- Entity binding `getComponent`: registry lookup by name; if found,
invoke the kind's `get`; if not found, return `sol::nil`. -/
def getComponent (w : World) (e : Entity) (name : String) : World × Val :=
  match luaComponentRegistry.lookup name with
  | some b => b.get e w
  | none => (w, .nil)

/-- Entity binding `removeComponent`: registry lookup by name; if
found, invoke the kind's `remove` and then force a Lua
garbage-collection pass; if not found, do nothing. -/
def removeComponent (w : World) (e : Entity) (name : String) : World :=
  match luaComponentRegistry.lookup name with
  | some b => collectGarbage (b.remove e w)
  | none => w

/-- Run one scripted `addComponent` statement: a sol error escaping
the add lambda aborts the statement (flag `true`) and leaves the
world exactly as it was; on success the statement yields the updated
world. -/
def runAddStmt (w : World) (e : Entity) (name : String) (obj : Val) : World × Bool :=
  match addComponent w e name obj with
  | .ok w2 => (w2, false)
  | .error _ => (w, true)

/-- Flecs `hasComponent(entity, kind)` for the registered kinds. -/
def hasComponent (w : World) (e : Entity) (name : String) : Bool :=
  if name = "Transform" then (w.transform e).isSome
  else if name = "Velocity" then (w.velocity e).isSome
  else if name = "DynamicComponent" then (w.dynamic e).isSome
  else false

/-- Scripted read `v.vx` through a fetched Velocity handle (the sol
property getter `&Velocity::vx`): a pointer userdata reads the field
out of the aliased storage slot. -/
def readVx (w : World) (v : Val) : Option Int :=
  match v with
  | .velocityPtr e => (w.velocity e).map Velocity.vx
  | .velocityUD t => some t.vx
  | _ => none

/-- Scripted read `v.vy` through a fetched Velocity handle. -/
def readVy (w : World) (v : Val) : Option Int :=
  match v with
  | .velocityPtr e => (w.velocity e).map Velocity.vy
  | .velocityUD t => some t.vy
  | _ => none

/-- Scripted read of the TransformTester resource held by a fetched
Transform handle. -/
def readTester (w : World) (v : Val) : Option Nat :=
  match v with
  | .transformPtr e => w.transform e
  | .transformUD t => some t
  | _ => none

/-- Scripted write `v.vx = n` through a fetched Velocity handle (the
sol property setter `&Velocity::vx`): a pointer userdata writes the
field directly into the aliased storage slot. -/
def writeVx (w : World) (v : Val) (n : Int) : World :=
  match v with
  | .velocityPtr e =>
      match w.velocity e with
      | some t =>
          { w with velocity := fun q => if q = e then some { t with vx := n } else w.velocity q }
      | none => w
  | _ => w

/-- Lua `tbl[k] = v` on the table object at address `r` (a raw table
assignment performed by scripted code on a fetched table). -/
def setKV : List (Val × Val) → Val → Val → List (Val × Val)
  | [], k, v => [(k, v)]
  | p :: rest, k, v =>
      if p.1 = k then (k, v) :: rest else p :: setKV rest k v

/-- Scripted mutation of a field of the Lua table at address `r`. -/
def setTableField (w : World) (r : Nat) (k v : Val) : World :=
  { w with heap := fun q => if q = r then setKV (w.heap r) k v else w.heap q }

/-- The empty world: no entity has any component, the Lua heap is
empty, no collection pass has run. -/
def emptyWorld : World :=
  { velocity := fun _ => none
    transform := fun _ => none
    dynamic := fun _ => none
    heap := fun _ => []
    heapNext := 0
    gcCount := 0 }

theorem lookup_transform :
    luaComponentRegistry.lookup "Transform" = some transformBinding := rfl

theorem lookup_velocity :
    luaComponentRegistry.lookup "Velocity" = some velocityBinding := rfl

theorem lookup_dynamic :
    luaComponentRegistry.lookup "DynamicComponent" = some dynamicBinding := rfl

/-- C3: for every registered typed component kind (Velocity and
Transform), entity `e`, and script value of the kind's shape,
`add(e, v)` succeeds, after it the entity has the component in
storage, and `get(e)` yields a handle whose fields read back equal to
`v`'s fields. -/
theorem add_then_get_reads_fields (w : World) (e : Entity) (v : Velocity) (r : Nat) :
    (∃ wv, addComponent w e "Velocity" (Val.velocityUD v) = .ok wv ∧
      hasComponent wv e "Velocity" = true ∧
      readVx wv (getComponent wv e "Velocity").2 = some v.vx ∧
      readVy wv (getComponent wv e "Velocity").2 = some v.vy) ∧
    (∃ wt, addComponent w e "Transform" (Val.transformUD r) = .ok wt ∧
      hasComponent wt e "Transform" = true ∧
      readTester wt (getComponent wt e "Transform").2 = some r) := by
  constructor
  · refine ⟨_, rfl, ?_, ?_, ?_⟩ <;>
      simp [hasComponent, getComponent, lookup_velocity, velocityBinding, velocityGet,
        readVx, readVy]
  · refine ⟨_, rfl, ?_, ?_⟩ <;>
      simp [hasComponent, getComponent, lookup_transform, transformBinding, transformGet,
        readTester]

/-- C6: a component-kind name that is not in the registry makes
`addComponent` succeed without touching the world, `getComponent`
return nil without touching the world, and `removeComponent` return
the world unchanged (in particular no garbage-collection pass);
none of the three raises an error. -/
theorem unknown_kind_noop (w : World) (e : Entity) (name : String) (obj : Val)
    (h : luaComponentRegistry.lookup name = none) :
    addComponent w e name obj = .ok w ∧
    getComponent w e name = (w, Val.nil) ∧
    removeComponent w e name = w := by
  refine ⟨?_, ?_, ?_⟩ <;> simp [addComponent, getComponent, removeComponent, h]

/-- C6 witness: the unknown name "Bogus" at a concrete world. -/
theorem unknown_kind_noop_witness :
    luaComponentRegistry.lookup "Bogus" = none ∧
    (addComponent emptyWorld 0 "Bogus" (Val.num 3) = .ok emptyWorld ∧
     getComponent emptyWorld 0 "Bogus" = (emptyWorld, Val.nil) ∧
     removeComponent emptyWorld 0 "Bogus" = emptyWorld) :=
  ⟨rfl, unknown_kind_noop emptyWorld 0 "Bogus" (Val.num 3) rfl⟩

/-- C2: for an entity that has a Velocity, the handle returned by
`getComponent` aliases the stored component: writing `vx` through the
fetched handle and then fetching again reads back the written value
(the handle is not a snapshot copy). -/
theorem get_handle_aliases_storage (w : World) (e : Entity) (t : Velocity) (n : Int)
    (h : w.velocity e = some t) :
    readVx (writeVx w (getComponent w e "Velocity").2 n)
        (getComponent (writeVx w (getComponent w e "Velocity").2 n) e "Velocity").2
      = some n := by
  simp [getComponent, lookup_velocity, velocityBinding, velocityGet, h, writeVx, readVx]

/-- C2 witness: the spec scenario at a concrete world — stored fields
(5, 10), mutate `vx` to 42 through the fetched handle, re-fetch and
observe 42. -/
theorem get_handle_aliases_storage_witness :
    { emptyWorld with
        velocity := fun q => if q = 0 then some ⟨5, 10⟩ else none }.velocity 0 = some ⟨5, 10⟩ ∧
    readVx
        (writeVx { emptyWorld with velocity := fun q => if q = 0 then some ⟨5, 10⟩ else none }
          (getComponent { emptyWorld with velocity := fun q => if q = 0 then some ⟨5, 10⟩ else none }
            0 "Velocity").2 42)
        (getComponent
          (writeVx { emptyWorld with velocity := fun q => if q = 0 then some ⟨5, 10⟩ else none }
            (getComponent { emptyWorld with velocity := fun q => if q = 0 then some ⟨5, 10⟩ else none }
              0 "Velocity").2 42)
          0 "Velocity").2 = some 42 :=
  ⟨rfl, get_handle_aliases_storage _ 0 ⟨5, 10⟩ 42 rfl⟩

/-- C4: for each registered kind, after `removeComponent` the entity
no longer has the component and a further `getComponent` yields nil;
and on an entity lacking the component, `getComponent` yields nil and
`removeComponent` leaves all component storage unchanged (only the
forced collection pass runs) — no call is a fault. -/
theorem remove_then_absent (w : World) (e : Entity) (name : String)
    (hname : name = "Transform" ∨ name = "Velocity" ∨ name = "DynamicComponent") :
    hasComponent (removeComponent w e name) e name = false ∧
    (getComponent (removeComponent w e name) e name).2 = Val.nil ∧
    (hasComponent w e name = false →
      (getComponent w e name).2 = Val.nil ∧
      ∀ q, (removeComponent w e name).velocity q = w.velocity q ∧
        (removeComponent w e name).transform q = w.transform q ∧
        (removeComponent w e name).dynamic q = w.dynamic q) := by
  rcases hname with h | h | h <;> subst h
  · refine ⟨?_, ?_, fun habs => ?_⟩
    · simp [removeComponent, lookup_transform, transformBinding, transformRemove,
        collectGarbage, hasComponent]
    · simp [removeComponent, getComponent, lookup_transform, transformBinding,
        transformRemove, transformGet, collectGarbage]
    · have hnone : w.transform e = none := by
        cases h2 : w.transform e with
        | none => rfl
        | some t => rw [hasComponent] at habs; simp [h2] at habs
      refine ⟨?_, fun q => ⟨rfl, ?_, rfl⟩⟩
      · simp [getComponent, lookup_transform, transformBinding, transformGet, hnone]
      · by_cases hq : q = e
        · subst hq
          simp [removeComponent, lookup_transform, transformBinding, transformRemove,
            collectGarbage, hnone]
        · simp [removeComponent, lookup_transform, transformBinding, transformRemove,
            collectGarbage, hq]
  · refine ⟨?_, ?_, fun habs => ?_⟩
    · simp [removeComponent, lookup_velocity, velocityBinding, velocityRemove,
        collectGarbage, hasComponent]
    · simp [removeComponent, getComponent, lookup_velocity, velocityBinding,
        velocityRemove, velocityGet, collectGarbage]
    · have hnone : w.velocity e = none := by
        cases h2 : w.velocity e with
        | none => rfl
        | some t => rw [hasComponent] at habs; simp [h2] at habs
      refine ⟨?_, fun q => ⟨?_, rfl, rfl⟩⟩
      · simp [getComponent, lookup_velocity, velocityBinding, velocityGet, hnone]
      · by_cases hq : q = e
        · subst hq
          simp [removeComponent, lookup_velocity, velocityBinding, velocityRemove,
            collectGarbage, hnone]
        · simp [removeComponent, lookup_velocity, velocityBinding, velocityRemove,
            collectGarbage, hq]
  · refine ⟨?_, ?_, fun habs => ?_⟩
    · simp [removeComponent, lookup_dynamic, dynamicBinding, dynamicRemove,
        collectGarbage, hasComponent]
    · simp [removeComponent, getComponent, lookup_dynamic, dynamicBinding,
        dynamicRemove, dynamicGet, collectGarbage]
    · have hnone : w.dynamic e = none := by
        cases h2 : w.dynamic e with
        | none => rfl
        | some t => rw [hasComponent] at habs; simp [h2] at habs
      refine ⟨?_, fun q => ⟨rfl, rfl, ?_⟩⟩
      · simp [getComponent, lookup_dynamic, dynamicBinding, dynamicGet, hnone]
      · by_cases hq : q = e
        · subst hq
          simp [removeComponent, lookup_dynamic, dynamicBinding, dynamicRemove,
            collectGarbage, hnone]
        · simp [removeComponent, lookup_dynamic, dynamicBinding, dynamicRemove,
            collectGarbage, hq]

/-- C4 witness: remove "Velocity" from an entity in the empty world
(which also lacks the component, exercising the no-op branch). -/
theorem remove_then_absent_witness :
    ("Velocity" = "Transform" ∨ "Velocity" = "Velocity" ∨ "Velocity" = "DynamicComponent") ∧
    (hasComponent (removeComponent emptyWorld 0 "Velocity") 0 "Velocity" = false ∧
     (getComponent (removeComponent emptyWorld 0 "Velocity") 0 "Velocity").2 = Val.nil ∧
     (hasComponent emptyWorld 0 "Velocity" = false →
       (getComponent emptyWorld 0 "Velocity").2 = Val.nil ∧
       ∀ q, (removeComponent emptyWorld 0 "Velocity").velocity q = emptyWorld.velocity q ∧
         (removeComponent emptyWorld 0 "Velocity").transform q = emptyWorld.transform q ∧
         (removeComponent emptyWorld 0 "Velocity").dynamic q = emptyWorld.dynamic q)) :=
  ⟨Or.inr (Or.inl rfl), remove_then_absent emptyWorld 0 "Velocity" (Or.inr (Or.inl rfl))⟩

theorem asVelocity_shape_error (w : World) (obj : Val)
    (h1 : ∀ t, obj ≠ Val.velocityUD t) (h2 : ∀ q, obj ≠ Val.velocityPtr q) :
    asVelocity w obj = Except.error "sol: cannot convert Lua value to Velocity" := by
  cases obj with
  | velocityUD t => exact absurd rfl (h1 t)
  | velocityPtr q => exact absurd rfl (h2 q)
  | nil => rfl
  | boolean b => rfl
  | num n => rfl
  | str s => rfl
  | tableRef r => rfl
  | transformUD t => rfl
  | transformPtr q => rfl

theorem asTransform_shape_error (w : World) (obj : Val)
    (h1 : ∀ t, obj ≠ Val.transformUD t) (h2 : ∀ q, obj ≠ Val.transformPtr q) :
    asTransform w obj = Except.error "sol: cannot convert Lua value to Transform" := by
  cases obj with
  | transformUD t => exact absurd rfl (h1 t)
  | transformPtr q => exact absurd rfl (h2 q)
  | nil => rfl
  | boolean b => rfl
  | num n => rfl
  | str s => rfl
  | tableRef r => rfl
  | velocityUD t => rfl
  | velocityPtr q => rfl

/-- C7: for each registered typed component kind separately, a script
value that does not match that kind's shape — it is neither a value
userdata nor a pointer userdata of the kind's usertype, the two forms
sol2's `as<T>()` converts — makes the add surface a scripting-level
error that aborts the scripted statement, and the world after the
aborted statement is exactly the world before it: no partial write,
all prior components (including any prior component of the same kind)
unchanged.  In particular a Transform userdata added under "Velocity"
aborts, and a Velocity userdata added under "Transform" aborts. -/
theorem conversion_mismatch_aborts (w : World) (e : Entity) (obj : Val) :
    ((∀ t, obj ≠ Val.velocityUD t) → (∀ q, obj ≠ Val.velocityPtr q) →
      runAddStmt w e "Velocity" obj = (w, true)) ∧
    ((∀ t, obj ≠ Val.transformUD t) → (∀ q, obj ≠ Val.transformPtr q) →
      runAddStmt w e "Transform" obj = (w, true)) := by
  constructor
  · intro h1 h2
    simp [runAddStmt, addComponent, lookup_velocity, velocityBinding, velocityAdd,
      asVelocity_shape_error w obj h1 h2]
  · intro h1 h2
    simp [runAddStmt, addComponent, lookup_transform, transformBinding, transformAdd,
      asTransform_shape_error w obj h1 h2]

/-- C7 witness: a Transform userdata added under "Velocity" and a
Velocity userdata added under "Transform" both abort with the world
unchanged. -/
theorem conversion_mismatch_aborts_witness :
    ((∀ t, Val.transformUD 0 ≠ Val.velocityUD t) ∧
     (∀ q, Val.transformUD 0 ≠ Val.velocityPtr q) ∧
     runAddStmt emptyWorld 0 "Velocity" (Val.transformUD 0) = (emptyWorld, true)) ∧
    ((∀ t, Val.velocityUD ⟨1, 2⟩ ≠ Val.transformUD t) ∧
     (∀ q, Val.velocityUD ⟨1, 2⟩ ≠ Val.transformPtr q) ∧
     runAddStmt emptyWorld 0 "Transform" (Val.velocityUD ⟨1, 2⟩) = (emptyWorld, true)) :=
  ⟨⟨fun t h => Val.noConfusion h, fun q h => Val.noConfusion h,
    (conversion_mismatch_aborts emptyWorld 0 (Val.transformUD 0)).1
      (fun t h => Val.noConfusion h) (fun q h => Val.noConfusion h)⟩,
   ⟨fun t h => Val.noConfusion h, fun q h => Val.noConfusion h,
    (conversion_mismatch_aborts emptyWorld 0 (Val.velocityUD ⟨1, 2⟩)).2
      (fun t h => Val.noConfusion h) (fun q h => Val.noConfusion h)⟩⟩

theorem buildFields_has_error (tbl : List (Val × Val)) :
    ∀ (acc : List (String × Val)) (k v : Val), (k, v) ∈ tbl → coerceKey k = none →
      ∃ m, buildFields tbl acc = Except.error m := by
  induction tbl with
  | nil => intro acc k v hmem _; simp at hmem
  | cons p rest ih =>
      intro acc k v hmem hk
      obtain ⟨k1, v1⟩ := p
      rcases List.mem_cons.mp hmem with heq | htail
      · rw [Prod.mk.injEq] at heq
        obtain ⟨hk1, -⟩ := heq
        subst hk1
        exact ⟨"sol: table key cannot convert to string", by simp [buildFields, hk]⟩
      · cases hck : coerceKey k1 with
        | none =>
            exact ⟨"sol: table key cannot convert to string", by simp [buildFields, hck]⟩
        | some s =>
            obtain ⟨m, hm⟩ := ih (insertField acc s v1) k v htail hk
            exact ⟨m, by simp [buildFields, hck, hm]⟩

/-- A world whose entity 0 already carries a DynamicComponent and
whose Lua heap holds, at address 0, a table with a boolean key (which
cannot coerce to a string). -/
def badKeyWorld : World :=
  { emptyWorld with
      dynamic := fun q => if q = 0 then some [("hp", Val.num 7)] else none,
      heap := fun r => if r = 0 then [(Val.boolean true, Val.num 1)] else [] }

/-- C5 counterexample: on an entity that already has a
DynamicComponent, the add of a table with a non-string-coercible key
fails — but afterwards the entity still HAS a DynamicComponent (its
old one), contradicting the claim that after the failed add the
entity has no DynamicComponent. -/
theorem dynamic_bad_key_still_has_old :
    (runAddStmt badKeyWorld 0 "DynamicComponent" (Val.tableRef 0)).2 = true ∧
    hasComponent (runAddStmt badKeyWorld 0 "DynamicComponent" (Val.tableRef 0)).1 0
        "DynamicComponent" = true :=
  ⟨rfl, rfl⟩

/-- C5 (amended): a Dynamic Component add of a table with at least
one non-string-coercible key fails as a whole and atomically — the
scripted statement aborts with an error and the world is exactly the
world before the call, so no partial field set is stored and the
entity's DynamicComponent state is unchanged (in particular, an
entity that had none still has none). -/
theorem dynamic_bad_key_atomic (w : World) (e : Entity) (r : Nat) (k v : Val)
    (hmem : (k, v) ∈ w.heap r) (hk : coerceKey k = none) :
    runAddStmt w e "DynamicComponent" (Val.tableRef r) = (w, true) ∧
    hasComponent (runAddStmt w e "DynamicComponent" (Val.tableRef r)).1 e "DynamicComponent"
      = (w.dynamic e).isSome := by
  obtain ⟨m, hm⟩ := buildFields_has_error (w.heap r) [] k v hmem hk
  have h1 : runAddStmt w e "DynamicComponent" (Val.tableRef r) = (w, true) := by
    simp [runAddStmt, addComponent, lookup_dynamic, dynamicBinding, dynamicAdd, asTable, hm]
  refine ⟨h1, ?_⟩
  rw [h1]
  simp [hasComponent]

/-- C5 witness: the boolean-keyed table of `badKeyWorld`. -/
theorem dynamic_bad_key_atomic_witness :
    (Val.boolean true, Val.num 1) ∈ badKeyWorld.heap 0 ∧
    coerceKey (Val.boolean true) = none ∧
    (runAddStmt badKeyWorld 0 "DynamicComponent" (Val.tableRef 0) = (badKeyWorld, true) ∧
     hasComponent (runAddStmt badKeyWorld 0 "DynamicComponent" (Val.tableRef 0)).1 0
         "DynamicComponent" = (badKeyWorld.dynamic 0).isSome) :=
  ⟨by decide, rfl,
   dynamic_bad_key_atomic badKeyWorld 0 0 (Val.boolean true) (Val.num 1) (by decide) rfl⟩

theorem lookup_cases (name : String) :
    luaComponentRegistry.lookup name = none ∨
    luaComponentRegistry.lookup name = some transformBinding ∨
    luaComponentRegistry.lookup name = some velocityBinding ∨
    luaComponentRegistry.lookup name = some dynamicBinding := by
  by_cases h1 : name = "Transform"
  · subst h1; exact Or.inr (Or.inl rfl)
  by_cases h2 : name = "Velocity"
  · subst h2; exact Or.inr (Or.inr (Or.inl rfl))
  by_cases h3 : name = "DynamicComponent"
  · subst h3; exact Or.inr (Or.inr (Or.inr rfl))
  left
  have b1 : (name == "Transform") = false := beq_eq_false_iff_ne.mpr h1
  have b2 : (name == "Velocity") = false := beq_eq_false_iff_ne.mpr h2
  have b3 : (name == "DynamicComponent") = false := beq_eq_false_iff_ne.mpr h3
  simp [luaComponentRegistry, List.lookup, b1, b2, b3]

/-- C10: `removeComponent` forces a Lua garbage-collection pass if
and only if the name resolves in the registry — for every world, so
in particular also when the entity does not have the component — and
`addComponent` (whether it succeeds or aborts with a conversion
error) and `getComponent` never force a collection pass. -/
theorem remove_forces_gc_iff_known (w : World) (e : Entity) (name : String) (obj : Val) :
    (removeComponent w e name).gcCount
        = (if (luaComponentRegistry.lookup name).isSome then w.gcCount + 1 else w.gcCount) ∧
    (runAddStmt w e name obj).1.gcCount = w.gcCount ∧
    (getComponent w e name).1.gcCount = w.gcCount := by
  rcases lookup_cases name with h | h | h | h
  · simp [removeComponent, runAddStmt, addComponent, getComponent, h]
  · refine ⟨?_, ?_, ?_⟩
    · simp [removeComponent, h, transformBinding, transformRemove, collectGarbage]
    · cases hobj : asTransform w obj with
      | ok t => simp [runAddStmt, addComponent, h, transformBinding, transformAdd, hobj]
      | error m => simp [runAddStmt, addComponent, h, transformBinding, transformAdd, hobj]
    · cases hte : (w.transform e).isSome <;>
        simp [getComponent, h, transformBinding, transformGet, hte]
  · refine ⟨?_, ?_, ?_⟩
    · simp [removeComponent, h, velocityBinding, velocityRemove, collectGarbage]
    · cases hobj : asVelocity w obj with
      | ok t => simp [runAddStmt, addComponent, h, velocityBinding, velocityAdd, hobj]
      | error m => simp [runAddStmt, addComponent, h, velocityBinding, velocityAdd, hobj]
    · cases hte : (w.velocity e).isSome <;>
        simp [getComponent, h, velocityBinding, velocityGet, hte]
  · refine ⟨?_, ?_, ?_⟩
    · simp [removeComponent, h, dynamicBinding, dynamicRemove, collectGarbage]
    · cases hobj : asTable obj with
      | ok r =>
          cases hbf : buildFields (w.heap r) [] with
          | ok fs => simp [runAddStmt, addComponent, h, dynamicBinding, dynamicAdd, hobj, hbf]
          | error m => simp [runAddStmt, addComponent, h, dynamicBinding, dynamicAdd, hobj, hbf]
      | error m => simp [runAddStmt, addComponent, h, dynamicBinding, dynamicAdd, hobj]
    · cases hde : w.dynamic e with
      | none => simp [getComponent, h, dynamicBinding, dynamicGet, hde]
      | some fs => simp [getComponent, h, dynamicBinding, dynamicGet, hde]

theorem insertField_append (s : String) (v : Val) :
    ∀ acc : List (String × Val), s ∉ acc.map Prod.fst →
      insertField acc s v = acc ++ [(s, v)] := by
  intro acc
  induction acc with
  | nil => intro _; rfl
  | cons p rest ih =>
      intro h
      simp only [List.map_cons, List.mem_cons] at h
      push_neg at h
      obtain ⟨h1, h2⟩ := h
      have hps : ¬(p.1 = s) := fun hh => h1 hh.symm
      simp [insertField, hps, ih h2]

theorem buildFields_ok (tbl : List (Val × Val)) :
    ∀ acc : List (String × Val),
      (∀ p ∈ tbl, ∃ s, p.1 = Val.str s) →
      ((acc.map fun q => Val.str q.1) ++ tbl.map Prod.fst).Nodup →
      ∃ fs, buildFields tbl acc = Except.ok fs ∧
        (fs.map fun p => (Val.str p.1, p.2)) = (acc.map fun q => (Val.str q.1, q.2)) ++ tbl := by
  induction tbl with
  | nil => intro acc _ _; exact ⟨acc, rfl, by simp⟩
  | cons p rest ih =>
      intro acc hkeys hnd
      obtain ⟨k, v⟩ := p
      obtain ⟨s, hs⟩ := hkeys (k, v) (List.mem_cons_self _ _)
      have hk : k = Val.str s := hs
      subst hk
      simp only [List.map_cons] at hnd
      have hdisj : List.Disjoint (acc.map fun q => Val.str q.1)
          (Val.str s :: rest.map Prod.fst) := (List.nodup_append.mp hnd).2.2
      have hsacc : s ∉ acc.map Prod.fst := by
        intro hmem
        have : Val.str s ∈ acc.map fun q => Val.str q.1 := by
          obtain ⟨q, hq, hq2⟩ := List.mem_map.mp hmem
          exact List.mem_map.mpr ⟨q, hq, by rw [hq2]⟩
        exact hdisj this (List.mem_cons_self _ _)
      have hnd2 : (((acc ++ [(s, v)]).map fun q => Val.str q.1) ++ rest.map Prod.fst).Nodup := by
        simpa using hnd
      obtain ⟨fs, hfs, hmap⟩ :=
        ih (acc ++ [(s, v)]) (fun q hq => hkeys q (List.mem_cons_of_mem _ hq)) hnd2
      refine ⟨fs, ?_, ?_⟩
      · simp [buildFields, coerceKey, insertField_append s v acc hsacc, hfs]
      · rw [hmap]; simp

/-- C8: adding a well-formed table (all keys are strings, distinct)
as a DynamicComponent and then getting it back yields a table with
exactly the same key/value pairs — no field dropped, none added. -/
theorem dynamic_roundtrip (w : World) (e : Entity) (r : Nat)
    (hkeys : ∀ p ∈ w.heap r, ∃ s, p.1 = Val.str s)
    (hnd : ((w.heap r).map Prod.fst).Nodup) :
    ∃ w2, addComponent w e "DynamicComponent" (Val.tableRef r) = .ok w2 ∧
      ∃ r2, (getComponent w2 e "DynamicComponent").2 = Val.tableRef r2 ∧
        ∀ kv, kv ∈ (getComponent w2 e "DynamicComponent").1.heap r2 ↔ kv ∈ w.heap r := by
  obtain ⟨fs, hfs, hmap⟩ := buildFields_ok (w.heap r) [] hkeys (by simpa using hnd)
  simp only [List.map_nil, List.nil_append] at hmap
  refine ⟨{ w with dynamic := fun q => if q = e then some fs else w.dynamic q }, ?_, ?_⟩
  · simp [addComponent, lookup_dynamic, dynamicBinding, dynamicAdd, asTable, hfs]
  · refine ⟨w.heapNext, ?_, ?_⟩
    · simp [getComponent, lookup_dynamic, dynamicBinding, dynamicGet]
    · intro kv
      simp [getComponent, lookup_dynamic, dynamicBinding, dynamicGet, hmap]

/-- The spec's round-trip example table at heap address 0. -/
def rtWorld : World :=
  { emptyWorld with
      heap := fun r =>
        if r = 0 then
          [(Val.str "a", Val.num 1), (Val.str "b", Val.str "x"), (Val.str "c", Val.boolean true)]
        else [] }

/-- C8 witness: the table of keys a, b, c and values 1, "x", true. -/
theorem dynamic_roundtrip_witness :
    (∀ p ∈ rtWorld.heap 0, ∃ s, p.1 = Val.str s) ∧
    ((rtWorld.heap 0).map Prod.fst).Nodup ∧
    (∃ w2, addComponent rtWorld 0 "DynamicComponent" (Val.tableRef 0) = .ok w2 ∧
      ∃ r2, (getComponent w2 0 "DynamicComponent").2 = Val.tableRef r2 ∧
        ∀ kv, kv ∈ (getComponent w2 0 "DynamicComponent").1.heap r2 ↔ kv ∈ rtWorld.heap 0) :=
  ⟨by
    intro p hp
    simp [rtWorld, emptyWorld] at hp
    rcases hp with h | h | h <;> subst h <;> exact ⟨_, rfl⟩,
   by decide,
   dynamic_roundtrip rtWorld 0 0
     (by
       intro p hp
       simp [rtWorld, emptyWorld] at hp
       rcases hp with h | h | h <;> subst h <;> exact ⟨_, rfl⟩)
     (by decide)⟩

/-- C9: DynamicComponent `get` builds a fresh table each call, so a
scripted mutation of a fetched table does not propagate into
Component Storage: the stored field mapping is unchanged (each field
value — including any reference value, which is copied only as a
reference — stays exactly as stored) and a re-fetch yields a new
table holding the original stored fields. -/
theorem dynamic_get_fresh_copy (w : World) (e : Entity) (fs : List (String × Val)) (k v : Val)
    (hd : w.dynamic e = some fs) :
    (getComponent w e "DynamicComponent").2 = Val.tableRef w.heapNext ∧
    (setTableField (getComponent w e "DynamicComponent").1 w.heapNext k v).dynamic e = some fs ∧
    (getComponent (setTableField (getComponent w e "DynamicComponent").1 w.heapNext k v) e
        "DynamicComponent").2 = Val.tableRef (w.heapNext + 1) ∧
    (getComponent (setTableField (getComponent w e "DynamicComponent").1 w.heapNext k v) e
        "DynamicComponent").1.heap (w.heapNext + 1)
      = fs.map fun p => (Val.str p.1, p.2) := by
  refine ⟨?_, ?_, ?_, ?_⟩ <;>
    simp [getComponent, lookup_dynamic, dynamicBinding, dynamicGet, hd, setTableField]

/-- A world whose entity 0 holds a DynamicComponent with one field. -/
def dynWorld : World :=
  { emptyWorld with dynamic := fun q => if q = 0 then some [("health", Val.num 100)] else none }

/-- C9 witness: fetch the health table, mutate the fetched copy,
re-fetch and observe the stored field unchanged. -/
theorem dynamic_get_fresh_copy_witness :
    dynWorld.dynamic 0 = some [("health", Val.num 100)] ∧
    ((getComponent dynWorld 0 "DynamicComponent").2 = Val.tableRef dynWorld.heapNext ∧
     (setTableField (getComponent dynWorld 0 "DynamicComponent").1 dynWorld.heapNext
         (Val.str "health") (Val.num 75)).dynamic 0 = some [("health", Val.num 100)] ∧
     (getComponent (setTableField (getComponent dynWorld 0 "DynamicComponent").1
         dynWorld.heapNext (Val.str "health") (Val.num 75)) 0
         "DynamicComponent").2 = Val.tableRef (dynWorld.heapNext + 1) ∧
     (getComponent (setTableField (getComponent dynWorld 0 "DynamicComponent").1
         dynWorld.heapNext (Val.str "health") (Val.num 75)) 0
         "DynamicComponent").1.heap (dynWorld.heapNext + 1)
       = [("health", Val.num 100)].map fun p => (Val.str p.1, p.2)) :=
  ⟨rfl, dynamic_get_fresh_copy dynWorld 0 [("health", Val.num 100)]
      (Val.str "health") (Val.num 75) rfl⟩

end FlecsTry

namespace FlecsTry.Lifetime

/-
Reference-count model of the Transform ownership protocol.

A Transform owns a `shared_ptr<TransformTester>`; the TransformTester
destructor (the teardown hook) runs exactly when the last shared_ptr
copy is dropped.  The references to one resource are: the copy inside
Flecs storage (put there by `e.set<T>`), and the copy inside the Lua
userdata built by the scripted constructor `Transform(x, y)` passed
to `addComponent` — a temporary that becomes collectible as soon as
the `addComponent` statement finishes but is only reclaimed by a
collector pass.  The `get` lambda returns a pointer userdata
(`sol::make_object(lua, e.get_mut<T>())`), which holds NO shared_ptr
copy, and `removeComponent` calls `lua.collect_garbage()` right after
the erase.  Each `addComponent("Transform", Transform(x, y))` call
allocates a fresh resource, identified by a counter.
-/

/-- One scripted statement on the player entity:
`addComponent("Transform", Transform(x, y))`,
`getComponent("Transform")`, `removeComponent("Transform")`. -/
inductive TOp where
  | add : TOp
  | get : TOp
  | remove : TOp
deriving DecidableEq, Repr

/-- State of the Transform slot and the TransformTester resources:
`storage` is the resource owned by the Flecs copy of the component
(if any); `temps` are the resources still kept alive only by
collectible Lua constructor temporaries; `destroyed` is the sequence
of teardown-hook firings so far; `nextId` numbers the resources
allocated so far (ids `0 .. nextId - 1`). -/
structure LState where
  storage : Option Nat
  temps : List Nat
  destroyed : List Nat
  nextId : Nat
deriving DecidableEq, Repr

/-- Process start: nothing allocated. -/
def startState : LState :=
  { storage := none, temps := [], destroyed := [], nextId := 0 }

/-- Drop the Flecs-storage reference (the component value is erased or
overwritten): if no collectible Lua temporary still holds the
resource, its reference count reaches zero and the teardown hook
fires now. -/
def dropStorage (s : LState) : LState :=
  match s.storage with
  | none => s
  | some r =>
      if r ∈ s.temps then { s with storage := none }
      else { s with storage := none, destroyed := s.destroyed ++ [r] }

/-- `lua.collect_garbage()`: every collectible temporary is reclaimed,
dropping its shared_ptr copy; a resource whose only remaining
reference was such a temporary is torn down now. -/
def collect (s : LState) : LState :=
  { s with
      temps := [],
      destroyed := s.destroyed ++ s.temps.filter fun r => !(s.storage == some r) }

/-- One scripted statement.  `add` allocates a fresh resource (the Lua
constructor temporary), overwrites the Flecs slot with a copy
(`e.set<T>` drops the previously stored value), and leaves the
temporary collectible.  `get` returns a pointer userdata holding no
reference, so it changes no reference count.  `remove` erases the
Flecs slot (`e.remove<T>`) and then forces a collector pass —
"Transform" always resolves in the registry, so the pass always
runs. -/
def step (s : LState) : TOp → LState
  | .add =>
      let s1 := dropStorage s
      { s1 with
          storage := some s.nextId,
          temps := s1.temps ++ [s.nextId],
          nextId := s.nextId + 1 }
  | .get => s
  | .remove => collect (dropStorage s)

/-- Run a script from process start. -/
def run (ops : List TOp) : LState := ops.foldl step startState

theorem dropStorage_storage (s : LState) : (dropStorage s).storage = none := by
  cases hst : s.storage with
  | none => simp [dropStorage, hst]
  | some r => by_cases hmem : r ∈ s.temps <;> simp [dropStorage, hst, hmem]

theorem dropStorage_temps (s : LState) : (dropStorage s).temps = s.temps := by
  cases hst : s.storage with
  | none => simp [dropStorage, hst]
  | some r => by_cases hmem : r ∈ s.temps <;> simp [dropStorage, hst, hmem]

theorem dropStorage_nextId (s : LState) : (dropStorage s).nextId = s.nextId := by
  cases hst : s.storage with
  | none => simp [dropStorage, hst]
  | some r => by_cases hmem : r ∈ s.temps <;> simp [dropStorage, hst, hmem]

theorem dropStorage_destroyed_sub (s : LState) :
    ∀ r ∈ s.destroyed, r ∈ (dropStorage s).destroyed := by
  intro r hr
  cases hst : s.storage with
  | none => simpa [dropStorage, hst] using hr
  | some q =>
      by_cases hmem : q ∈ s.temps <;> simp [dropStorage, hst, hmem]
      · exact hr
      · exact Or.inl hr

/-- The state invariant: every tracked resource id was allocated;
collectible temporaries and teardown events are duplicate-free; every
allocated resource is either already torn down or still referenced
(from storage or a temporary); and no torn-down resource is still
referenced (teardown happens exactly when the last reference is
dropped, so a destroyed resource has no live reference left). -/
structure Inv (s : LState) : Prop where
  storage_lt : ∀ r, s.storage = some r → r < s.nextId
  temps_lt : ∀ r ∈ s.temps, r < s.nextId
  destroyed_lt : ∀ r ∈ s.destroyed, r < s.nextId
  temps_nd : s.temps.Nodup
  destroyed_nd : s.destroyed.Nodup
  complete : ∀ r, r < s.nextId → r ∈ s.destroyed ∨ s.storage = some r ∨ r ∈ s.temps
  destroyed_dead : ∀ r ∈ s.destroyed, s.storage ≠ some r ∧ r ∉ s.temps

theorem inv_start : Inv startState := by
  refine ⟨?_, ?_, ?_, ?_, ?_, ?_, ?_⟩ <;> simp [startState]

theorem inv_dropStorage (s : LState) (h : Inv s) : Inv (dropStorage s) := by
  rcases hst : s.storage with _ | r
  · have hid : dropStorage s = s := by simp [dropStorage, hst]
    rwa [hid]
  · by_cases hmem : r ∈ s.temps
    · have hd : dropStorage s = { s with storage := none } := by
        simp [dropStorage, hst, hmem]
      rw [hd]
      refine ⟨?_, h.temps_lt, h.destroyed_lt, h.temps_nd, h.destroyed_nd, ?_, ?_⟩
      · intro q hq
        have hq2 : (none : Option Nat) = some q := hq
        exact Option.noConfusion hq2
      · intro q hq
        rcases h.complete q hq with hc | hc | hc
        · exact Or.inl hc
        · rw [hst] at hc
          have : r = q := Option.some_inj.mp hc
          subst this
          exact Or.inr (Or.inr hmem)
        · exact Or.inr (Or.inr hc)
      · intro q hq
        refine ⟨?_, (h.destroyed_dead q hq).2⟩
        intro hcon
        have hcon2 : (none : Option Nat) = some q := hcon
        exact Option.noConfusion hcon2
    · have hd : dropStorage s = { s with storage := none, destroyed := s.destroyed ++ [r] } := by
        simp [dropStorage, hst, hmem]
      rw [hd]
      have hrd : r ∉ s.destroyed := fun hc => (h.destroyed_dead r hc).1 hst
      have hrlt : r < s.nextId := h.storage_lt r hst
      refine ⟨?_, h.temps_lt, ?_, h.temps_nd, ?_, ?_, ?_⟩
      · intro q hq
        have hq2 : (none : Option Nat) = some q := hq
        exact Option.noConfusion hq2
      · intro q hq
        rcases List.mem_append.mp hq with hq | hq
        · exact h.destroyed_lt q hq
        · rcases List.mem_singleton.mp hq with rfl
          exact hrlt
      · refine List.Nodup.append h.destroyed_nd (List.nodup_singleton r) ?_
        intro a ha hb
        rcases List.mem_singleton.mp hb with rfl
        exact hrd ha
      · intro q hq
        rcases h.complete q hq with hc | hc | hc
        · exact Or.inl (List.mem_append_left _ hc)
        · rw [hst] at hc
          have : r = q := Option.some_inj.mp hc
          subst this
          exact Or.inl (List.mem_append_right _ (List.mem_singleton_self r))
        · exact Or.inr (Or.inr hc)
      · intro q hq
        have hnone : ({ s with storage := none, destroyed := s.destroyed ++ [r] } : LState).storage
            = (none : Option Nat) := rfl
        rcases List.mem_append.mp hq with hq | hq
        · exact ⟨by rw [hnone]; exact fun hcon => Option.noConfusion hcon,
            (h.destroyed_dead q hq).2⟩
        · rcases List.mem_singleton.mp hq with rfl
          exact ⟨by rw [hnone]; exact fun hcon => Option.noConfusion hcon, hmem⟩

theorem inv_collect (s : LState) (h : Inv s) (hst : s.storage = none) : Inv (collect s) := by
  have hfilter : (s.temps.filter fun r => !(s.storage == some r)) = s.temps := by
    refine List.filter_eq_self.mpr fun a _ => ?_
    rw [hst]; rfl
  have hc : collect s = { s with temps := [], destroyed := s.destroyed ++ s.temps } := by
    unfold collect; rw [hfilter]
  rw [hc]
  have hdisj : List.Disjoint s.destroyed s.temps := by
    intro a ha hb
    exact (h.destroyed_dead a ha).2 hb
  refine ⟨?_, ?_, ?_, List.nodup_nil, ?_, ?_, ?_⟩
  · intro q hq
    have hq2 : s.storage = some q := hq
    rw [hst] at hq2
    exact Option.noConfusion hq2
  · intro q hq
    exact absurd hq (List.not_mem_nil q)
  · intro q hq
    rcases List.mem_append.mp hq with hq | hq
    · exact h.destroyed_lt q hq
    · exact h.temps_lt q hq
  · exact List.Nodup.append h.destroyed_nd h.temps_nd hdisj
  · intro q hq
    rcases h.complete q hq with hcm | hcm | hcm
    · exact Or.inl (List.mem_append_left _ hcm)
    · rw [hst] at hcm
      exact Option.noConfusion hcm
    · exact Or.inl (List.mem_append_right _ hcm)
  · intro q hq
    refine ⟨?_, List.not_mem_nil q⟩
    intro hcon
    have hcon2 : s.storage = some q := hcon
    rw [hst] at hcon2
    exact Option.noConfusion hcon2

theorem inv_step (s : LState) (h : Inv s) (op : TOp) : Inv (step s op) := by
  cases op with
  | get => exact h
  | remove => exact inv_collect _ (inv_dropStorage s h) (dropStorage_storage s)
  | add =>
      have h1 := inv_dropStorage s h
      have ht := dropStorage_temps s
      have hn := dropStorage_nextId s
      have hs := dropStorage_storage s
      refine ⟨?_, ?_, ?_, ?_, ?_, ?_, ?_⟩
      · intro q hq
        have hq2 : some s.nextId = some q := hq
        have : s.nextId = q := Option.some_inj.mp hq2
        subst this
        exact Nat.lt_succ_self _
      · intro q hq
        have hq2 : q ∈ (dropStorage s).temps ++ [s.nextId] := hq
        rcases List.mem_append.mp hq2 with hq3 | hq3
        · rw [ht] at hq3
          exact Nat.lt_succ_of_lt (h.temps_lt q hq3)
        · rcases List.mem_singleton.mp hq3 with rfl
          exact Nat.lt_succ_self _
      · intro q hq
        have hq2 : q ∈ (dropStorage s).destroyed := hq
        have := h1.destroyed_lt q hq2
        rw [hn] at this
        exact Nat.lt_succ_of_lt this
      · show ((dropStorage s).temps ++ [s.nextId]).Nodup
        refine List.Nodup.append ?_ (List.nodup_singleton _) ?_
        · rw [ht]; exact h.temps_nd
        · intro a ha hb
          rcases List.mem_singleton.mp hb with rfl
          rw [ht] at ha
          exact absurd (h.temps_lt _ ha) (Nat.lt_irrefl _)
      · exact h1.destroyed_nd
      · intro q hq
        rcases Nat.lt_succ_iff_lt_or_eq.mp hq with hq2 | hq2
        · rw [← hn] at hq2
          rcases h1.complete q hq2 with hc | hc | hc
          · exact Or.inl hc
          · rw [hs] at hc
            exact Option.noConfusion hc
          · exact Or.inr (Or.inr (List.mem_append_left _ hc))
        · subst hq2
          exact Or.inr (Or.inl rfl)
      · intro q hq
        have hq2 : q ∈ (dropStorage s).destroyed := hq
        have hqlt : q < s.nextId := by
          have := h1.destroyed_lt q hq2
          rwa [hn] at this
        constructor
        · intro hcon
          have hcon2 : some s.nextId = some q := hcon
          have : s.nextId = q := Option.some_inj.mp hcon2
          subst this
          exact Nat.lt_irrefl _ hqlt
        · intro hcon
          have hcon2 : q ∈ (dropStorage s).temps ++ [s.nextId] := hcon
          rcases List.mem_append.mp hcon2 with hc | hc
          · exact (h1.destroyed_dead q hq2).2 hc
          · rcases List.mem_singleton.mp hc with rfl
            exact Nat.lt_irrefl _ hqlt

theorem inv_foldl (ops : List TOp) : ∀ s : LState, Inv s → Inv (ops.foldl step s) := by
  induction ops with
  | nil => intro s h; exact h
  | cons op rest ih => intro s h; exact ih _ (inv_step s h op)

theorem inv_run (ops : List TOp) : Inv (run ops) := inv_foldl ops startState inv_start

theorem step_remove_flushed (s : LState) :
    (step s TOp.remove).storage = none ∧ (step s TOp.remove).temps = [] ∧
    (step s TOp.remove).nextId = s.nextId := by
  refine ⟨?_, rfl, ?_⟩
  · show (dropStorage s).storage = none
    exact dropStorage_storage s
  · show (dropStorage s).nextId = s.nextId
    exact dropStorage_nextId s

/-- After `removeComponent("Transform")` returns, every resource ever
allocated has been torn down. -/
theorem remove_destroys_all (s : LState) (h : Inv s) :
    ∀ r, r < s.nextId → r ∈ (step s TOp.remove).destroyed := by
  intro r hr
  have h2 : Inv (step s TOp.remove) := inv_step s h TOp.remove
  obtain ⟨hst, htm, hnx⟩ := step_remove_flushed s
  rcases h2.complete r (by rw [hnx]; exact hr) with hc | hc | hc
  · exact hc
  · rw [hst] at hc
    exact Option.noConfusion hc
  · rw [htm] at hc
    exact absurd hc (List.not_mem_nil r)

theorem destroyed_mono_step (s : LState) (op : TOp) :
    ∀ r ∈ s.destroyed, r ∈ (step s op).destroyed := by
  intro r hr
  cases op with
  | get => exact hr
  | add => exact dropStorage_destroyed_sub s r hr
  | remove => exact List.mem_append_left _ (dropStorage_destroyed_sub s r hr)

theorem destroyed_mono_foldl (ops : List TOp) :
    ∀ (s : LState) (r : Nat), r ∈ s.destroyed → r ∈ (ops.foldl step s).destroyed := by
  induction ops with
  | nil => intro s r hr; exact hr
  | cons op rest ih => intro s r hr; exact ih _ r (destroyed_mono_step s op r hr)

/-- C1: across any script sequence of addComponent / getComponent /
removeComponent calls on the Transform kind, the TransformTester
teardown hook fires at most once per resource (the final teardown
sequence is duplicate-free), and for every `removeComponent` call in
the script, every resource allocated before it has fired its teardown
hook by the time that call returns (and it stays fired for the rest
of the run) — teardown is never deferred past the `removeComponent`
return, in particular never to process shutdown.  This rests on
`getComponent` returning an aliasing pointer (no shared_ptr copy) and
`removeComponent` forcing a collector pass before returning. -/
theorem transform_teardown_once (ops : List TOp) :
    (run ops).destroyed.Nodup ∧
    ∀ pre suf, ops = pre ++ TOp.remove :: suf →
      ∀ r, r < (run pre).nextId →
        r ∈ (run (pre ++ [TOp.remove])).destroyed ∧ r ∈ (run ops).destroyed := by
  refine ⟨(inv_run ops).destroyed_nd, ?_⟩
  intro pre suf heq r hr
  have hpre : Inv (run pre) := inv_run pre
  have h1 : run (pre ++ [TOp.remove]) = step (run pre) TOp.remove := by
    unfold run
    rw [List.foldl_append]
    rfl
  have hin : r ∈ (run (pre ++ [TOp.remove])).destroyed := by
    rw [h1]
    exact remove_destroys_all (run pre) hpre r hr
  refine ⟨hin, ?_⟩
  have h2 : run ops = suf.foldl step (step (run pre) TOp.remove) := by
    rw [heq]
    unfold run
    rw [List.foldl_append]
    rfl
  rw [h2]
  apply destroyed_mono_foldl
  rw [h1] at hin
  exact hin

/-- C1 witness: the script add; remove — resource 0 is allocated by
the add and has fired its (unique) teardown by the remove's return. -/
theorem transform_teardown_once_witness :
    ([TOp.add, TOp.remove] = [TOp.add] ++ TOp.remove :: ([] : List TOp)) ∧
    0 < (run [TOp.add]).nextId ∧
    ((run [TOp.add, TOp.remove]).destroyed.Nodup ∧
     (0 ∈ (run ([TOp.add] ++ [TOp.remove])).destroyed ∧
      0 ∈ (run [TOp.add, TOp.remove]).destroyed)) :=
  ⟨rfl, by decide,
   (transform_teardown_once [TOp.add, TOp.remove]).1,
   (transform_teardown_once [TOp.add, TOp.remove]).2 [TOp.add] [] rfl 0 (by decide)⟩

end FlecsTry.Lifetime
